import Mathlib

/-!
Shallow embedding of `src/index.ts` of gocreate-monday-sync: a scheduled job
that pulls customer records from the GoCreate CRM and upserts them into a
monday.com board, matching by email.  External I/O (the GoCreate fetch, the
monday GraphQL calls, the key-value storage and the sleeps) is modelled as an
explicit trace of `Effect`s, and the behaviour of the external services is
supplied by oracles.  Times are milliseconds since the Unix epoch (the model
domain is times at or after the epoch).
-/

namespace GocreateMondaySync

/-! ## Calendar arithmetic (civil-from-days and back) -/

/-- Convert a count of days since 1970-01-01 to a civil date (year, month, day).
Standard era-based algorithm, valid for days ≥ 0. -/
def daysToCivil (days : Nat) : Nat × Nat × Nat :=
  let z := days + 719468
  let era := z / 146097
  let doe := z % 146097
  let yoe := (doe - doe / 1460 + doe / 36524 - doe / 146096) / 365
  let y := yoe + era * 400
  let doy := doe - (365 * yoe + yoe / 4 - yoe / 100)
  let mp := (5 * doy + 2) / 153
  let d := doy - (153 * mp + 2) / 5 + 1
  let m := if mp < 10 then mp + 3 else mp - 9
  (if m ≤ 2 then y + 1 else y, m, d)

/-- Convert a civil date to days since 1970-01-01 (valid for dates in 1970 or later). -/
def daysFromCivil (y m d : Nat) : Nat :=
  let y' := if m ≤ 2 then y - 1 else y
  let era := y' / 400
  let yoe := y' % 400
  let mp := if m > 2 then m - 3 else m + 9
  let doy := (153 * mp + 2) / 5 + d - 1
  let doe := yoe * 365 + yoe / 4 - yoe / 100 + doy
  era * 146097 + doe - 719468

def isLeapYear (y : Nat) : Bool :=
  (y % 4 == 0 && y % 100 != 0) || y % 400 == 0

def daysInMonth (y m : Nat) : Nat :=
  if m == 2 then (if isLeapYear y then 29 else 28)
  else if m == 4 || m == 6 || m == 9 || m == 11 then 30
  else 31

/-- Day of week of a day count since the epoch, with Sunday = 0
(1970-01-01 was a Thursday). -/
def dayOfWeekSun0 (days : Nat) : Nat := (days + 4) % 7

def pad2 (n : Nat) : String := if n < 10 then "0" ++ toString n else toString n
def pad3 (n : Nat) : String :=
  if n < 10 then "00" ++ toString n else if n < 100 then "0" ++ toString n else toString n
def pad4 (n : Nat) : String :=
  if n < 10 then "000" ++ toString n
  else if n < 100 then "00" ++ toString n
  else if n < 1000 then "0" ++ toString n
  else toString n

/-- `Date.prototype.toISOString` for an epoch-milliseconds instant:
`YYYY-MM-DDTHH:MM:SS.sssZ` in UTC. -/
def toISOStringUtc (ms : Nat) : String :=
  let days := ms / 86400000
  let rem := ms % 86400000
  let c := daysToCivil days
  pad4 c.1 ++ "-" ++ pad2 c.2.1 ++ "-" ++ pad2 c.2.2 ++ "T" ++
    pad2 (rem / 3600000) ++ ":" ++ pad2 (rem % 3600000 / 60000) ++ ":" ++
    pad2 (rem % 60000 / 1000) ++ "." ++ pad3 (rem % 1000) ++ "Z"

/-! ## ISO-8601 date-time parsing (the model of the `new Date(string)` parse) -/

def digitVal (c : Char) : Nat := c.toNat - 48

/-- Parse an optional trailing UTC designator or offset (`""`, `"Z"`, `±HH:MM`),
returning the offset in minutes east of UTC. -/
def parseTzSuffix : List Char → Option Int
  | [] => some 0
  | ['Z'] => some 0
  | [sgn, h1, h2, ':', m1, m2] =>
    if (sgn == '+' || sgn == '-') && h1.isDigit && h2.isDigit && m1.isDigit && m2.isDigit then
      let h := digitVal h1 * 10 + digitVal h2
      let m := digitVal m1 * 10 + digitVal m2
      if h ≤ 23 && m ≤ 59 then
        some (if sgn == '+' then (h * 60 + m : Int) else -(h * 60 + m : Int))
      else none
    else none
  | _ => none

/-- Parse an optional fractional-seconds part: empty, or `.` followed by one or
more digits (only the first three are significant), then a timezone suffix.
Returns milliseconds and the offset in minutes. -/
def parseFracAndTz : List Char → Option (Nat × Int)
  | '.' :: rest =>
    let digits := rest.takeWhile (·.isDigit)
    let tail := rest.dropWhile (·.isDigit)
    if digits.length == 0 then none
    else
      let d3 := (digits ++ ['0', '0', '0']).take 3
      let msv := d3.foldl (fun a c => a * 10 + digitVal c) 0
      (parseTzSuffix tail).map (fun off => (msv, off))
  | l => (parseTzSuffix l).map (fun off => (0, off))

/-- Parse the time-of-day part `HH:MM[:SS[.sss]][Z|±HH:MM]`, returning
milliseconds into the day and the timezone offset in minutes. -/
def parseTimePart : List Char → Option (Nat × Int)
  | h1 :: h2 :: ':' :: m1 :: m2 :: rest =>
    if h1.isDigit && h2.isDigit && m1.isDigit && m2.isDigit then
      let h := digitVal h1 * 10 + digitVal h2
      let mi := digitVal m1 * 10 + digitVal m2
      if h ≤ 23 && mi ≤ 59 then
        match rest with
        | ':' :: s1 :: s2 :: rest2 =>
          if s1.isDigit && s2.isDigit then
            let s := digitVal s1 * 10 + digitVal s2
            if s ≤ 59 then
              (parseFracAndTz rest2).map (fun p =>
                (h * 3600000 + mi * 60000 + s * 1000 + p.1, p.2))
            else none
          else none
        | l =>
          (parseTzSuffix l).map (fun off => (h * 3600000 + mi * 60000, off))
      else none
    else none
  | _ => none

/-- Parse a full ISO date-time string `YYYY-MM-DDTHH:MM[:SS[.sss]][Z|±HH:MM]`
to epoch milliseconds (as an integer, so pre-epoch offsets do not underflow). -/
def parseIsoMs (s : String) : Option Int :=
  match s.toList with
  | y1 :: y2 :: y3 :: y4 :: '-' :: m1 :: m2 :: '-' :: d1 :: d2 :: 'T' :: rest =>
    if y1.isDigit && y2.isDigit && y3.isDigit && y4.isDigit &&
       m1.isDigit && m2.isDigit && d1.isDigit && d2.isDigit then
      let y := digitVal y1 * 1000 + digitVal y2 * 100 + digitVal y3 * 10 + digitVal y4
      let mo := digitVal m1 * 10 + digitVal m2
      let da := digitVal d1 * 10 + digitVal d2
      if 1 ≤ mo && mo ≤ 12 && 1 ≤ da && da ≤ daysInMonth y mo then
        (parseTimePart rest).map (fun p =>
          (daysFromCivil y mo da * 86400000 + p.1 : Int) - p.2 * 60000)
      else none
    else none
  | _ => none

/-- The regex `^\d{4}-\d{2}-\d{2}T` of `isValidIsoDate`. -/
def isoShapeOk (s : String) : Bool :=
  match s.toList with
  | y1 :: y2 :: y3 :: y4 :: h1 :: m1 :: m2 :: h2 :: d1 :: d2 :: t :: _ =>
    y1.isDigit && y2.isDigit && y3.isDigit && y4.isDigit && h1 == '-' &&
      m1.isDigit && m2.isDigit && h2 == '-' && d1.isDigit && d2.isDigit && t == 'T'
  | _ => false

/-- `isValidIsoDate(s)`: `new Date(s)` parses to a non-NaN time and `s` matches
`^\d{4}-\d{2}-\d{2}T`. -/
def isValidIsoDate (s : String) : Bool :=
  (parseIsoMs s).isSome && isoShapeOk s

/-! ## Europe/Stockholm local time (`stockholmParts`) -/

/-- Modelled from the spec: the Europe/Stockholm conversion that
`Intl.DateTimeFormat` (a platform builtin, not part of src) performs inside
`stockholmParts`, "accounting for daylight-saving transitions".  EU rule:
CEST (UTC+2) from 01:00 UTC on the last Sunday of March until 01:00 UTC on
the last Sunday of October, CET (UTC+1) otherwise. -/
def lastSundayOfMonth31 (y m : Nat) : Nat :=
  31 - dayOfWeekSun0 (daysFromCivil y m 31)

def cestStartMs (y : Nat) : Nat :=
  daysFromCivil y 3 (lastSundayOfMonth31 y 3) * 86400000 + 3600000

def cestEndMs (y : Nat) : Nat :=
  daysFromCivil y 10 (lastSundayOfMonth31 y 10) * 86400000 + 3600000

def stockholmOffsetMinutes (ms : Nat) : Nat :=
  let y := (daysToCivil (ms / 86400000)).1
  if cestStartMs y ≤ ms && ms < cestEndMs y then 120 else 60

structure StockholmTimeParts where
  yyyyMMdd : String
  hour : Nat
  minute : Nat
  deriving Repr, DecidableEq

/-- `stockholmParts(date)`: the Europe/Stockholm wall-clock date string
`YYYY-MM-DD`, hour and minute of the given instant. -/
def stockholmParts (ms : Nat) : StockholmTimeParts :=
  let loc := ms + stockholmOffsetMinutes ms * 60000
  let c := daysToCivil (loc / 86400000)
  { yyyyMMdd := pad4 c.1 ++ "-" ++ pad2 c.2.1 ++ "-" ++ pad2 c.2.2
    hour := loc % 86400000 / 3600000
    minute := loc % 3600000 / 60000 }

/-! ## JavaScript string primitives -/

/-- A JS WhiteSpace / LineTerminator code point (modelled for the ASCII range
plus NBSP, the characters `String.prototype.trim` strips). -/
def jsIsWhitespaceChar (ch : Char) : Bool :=
  ch == ' ' || ch == '\t' || ch == '\n' || ch == '\r' ||
    ch.toNat == 11 || ch.toNat == 12 || ch.toNat == 160

/-- `String.prototype.trim`: strip leading and trailing whitespace. -/
def jsTrim (s : String) : String :=
  ⟨((s.data.dropWhile jsIsWhitespaceChar).reverse.dropWhile jsIsWhitespaceChar).reverse⟩

/-- `String.prototype.toLowerCase`, modelled for the ASCII range (enough for
the email addresses and env values this program lowercases). -/
def jsToLowerChar (ch : Char) : Char :=
  if 'A' ≤ ch && ch ≤ 'Z' then Char.ofNat (ch.toNat + 32) else ch

def jsToLower (s : String) : String := ⟨s.data.map jsToLowerChar⟩

/-! ## Environment-variable helpers -/

/-- `getEnvBool(name, fallback)`: falsy (missing or empty) values give the
fallback, otherwise membership of the lowercased value in the truthy list. -/
def getEnvBool (v : Option String) (fallback : Bool) : Bool :=
  match v with
  | none => fallback
  | some s =>
    if s == "" then fallback
    else ["1", "true", "yes", "y", "on"].contains (jsToLower s)

/-- `getEnvInt(name, fallback)`: falsy values give the fallback, otherwise
`Number(v)` with a finiteness check (modelled for decimal integer strings;
non-numeric strings give the fallback). -/
def getEnvInt (v : Option String) (fallback : Int) : Int :=
  match v with
  | none => fallback
  | some s =>
    if s == "" then fallback
    else match s.toInt? with
      | some n => n
      | none => fallback

/-- `isoDaysAgoUtc(days)`: `new Date(Date.now() - days*24*60*60*1000)` as an
ISO string, at the instant `nowMs`. -/
def isoDaysAgoUtc (days : Int) (nowMs : Nat) : String :=
  toISOStringUtc ((nowMs : Int) - days * 86400000).toNat

/-! ## Data model of the sync -/

/-- A GoCreate customer record (all fields optional in the JSON). -/
structure GoCreateCustomerInfo where
  FirstName : Option String := none
  LastName : Option String := none
  MobileNumber : Option String := none
  Email : Option String := none
  CompanyName : Option String := none
  deriving Repr, DecidableEq

/-- The configuration `runSync` reads from the environment: `DRY_RUN`,
`UPDATE_EXISTING`, `LOOKBACK_DAYS`, `MONDAY_BOARD_ID`, `MONDAY_GROUP_ID` and
the three column ids. -/
structure Config where
  dryRun : Bool
  updateExisting : Bool
  lookbackDays : Int
  boardId : Nat
  groupId : String
  colEmail : String
  colTelefon : String
  colForetag : String
  deriving Repr, DecidableEq

/-- The raw (optional) environment strings behind the three `getEnv*` reads. -/
structure RawEnv where
  dryRunVar : Option String := none
  updateExistingVar : Option String := none
  lookbackDaysVar : Option String := none

/-- The first three lines of `runSync`: derive the flags from the environment
with their fallbacks (`DRY_RUN` false, `UPDATE_EXISTING` true,
`LOOKBACK_DAYS` 1). -/
def mkConfigFlags (e : RawEnv) (boardId : Nat) (groupId colEmail colTelefon colForetag : String) :
    Config :=
  { dryRun := getEnvBool e.dryRunVar false
    updateExisting := getEnvBool e.updateExistingVar true
    lookbackDays := getEnvInt e.lookbackDaysVar 1
    boardId, groupId, colEmail, colTelefon, colForetag }

/-- One observable interaction with the outside world, in program order. -/
inductive Effect where
  /-- `storage.get(key)` -/
  | storageGet (key : String)
  /-- `storage.set(key, value)` -/
  | storageSet (key : String) (value : String)
  /-- the GoCreate `/Customer/ByDateRange/` POST with its window -/
  | fetchCustomers (startISO : String) (endISO : String)
  /-- the `items_page_by_column_values` query of `mondayFindItemByColumnValue` -/
  | search (boardId : Nat) (columnId : String) (value : String) (limit : Nat)
  /-- the `create_item` mutation of `mondayCreateItem` -/
  | createItem (boardId : Nat) (groupId : String) (itemName : String)
      (columnValues : List (String × String))
  /-- the `change_multiple_column_values` mutation of `mondayUpdateItemColumns` -/
  | updateItem (boardId : Nat) (itemId : String) (columnValues : List (String × String))
  /-- `sleep(ms)` -/
  | sleep (ms : Nat)
  deriving Repr, DecidableEq

/-- What the monday search returns for a customer: an item, no item, or a
thrown error (`auth` marks a `MondayAuthError`). -/
inductive FindOutcome where
  | found (id : String) (name : String)
  | notFound
  | fail (msg : String) (auth : Bool)
  deriving Repr, DecidableEq

/-- What the monday write call (create or update) for a customer does. -/
inductive WriteOutcome where
  | ok
  | fail (msg : String) (auth : Bool)
  deriving Repr, DecidableEq

/-- The behaviour of the monday API for one loop iteration. -/
structure CustomerOracle where
  findr : FindOutcome
  writer : WriteOutcome
  deriving Repr, DecidableEq

/-- How one loop iteration ended. -/
inductive CustOutcome where
  /-- `created++` (the not-found branch) -/
  | createdOne
  /-- `updated++` (found, `UPDATE_EXISTING` on) -/
  | updatedOne
  /-- `skippedExisting++` (found, `UPDATE_EXISTING` off) -/
  | skippedExistingOne
  /-- `skippedNoEmail++; continue` -/
  | skippedNoEmailOne
  /-- a non-auth error was caught: `errors.push({email, error})` -/
  | errored (email : Option String) (msg : String)
  /-- a `MondayAuthError` is rethrown, aborting the run -/
  | authAbort (msg : String)
  deriving Repr, DecidableEq

/-- The trimmed raw email of a record: `(c.Email ?? "").trim()`. -/
def emailRawOf (c : GoCreateCustomerInfo) : String := jsTrim (c.Email.getD "")

/-- The normalized email: `emailRaw.toLowerCase()`. -/
def emailOf (c : GoCreateCustomerInfo) : String := jsToLower (emailRawOf c)

/-- The item name: `` `${firstName} ${lastName}`.trim() || email ``. -/
def itemNameOf (c : GoCreateCustomerInfo) : String :=
  let firstName := jsTrim (c.FirstName.getD "")
  let lastName := jsTrim (c.LastName.getD "")
  let joined := jsTrim (firstName ++ " " ++ lastName)
  if joined == "" then emailOf c else joined

/-- The `columnValues` object, in insertion order. -/
def columnValuesOf (cfg : Config) (c : GoCreateCustomerInfo) : List (String × String) :=
  [(cfg.colTelefon, jsTrim (c.MobileNumber.getD "")),
   (cfg.colEmail, emailOf c),
   (cfg.colForetag, jsTrim (c.CompanyName.getD ""))]

/-- One iteration of the `for (const c of customers)` loop, with the monday
API's behaviour given by the oracle `o`: returns how the iteration ended and
the effects it performed, in order.  A write call that throws still appears in
the trace (the request was issued). -/
def processCustomer (cfg : Config) (c : GoCreateCustomerInfo) (o : CustomerOracle) :
    CustOutcome × List Effect :=
  if emailRawOf c == "" then (.skippedNoEmailOne, [])
  else
    let email := emailOf c
    let searchEff := Effect.search cfg.boardId cfg.colEmail email 1
    match o.findr with
    | .fail msg auth =>
      if auth then (.authAbort msg, [searchEff]) else (.errored c.Email msg, [searchEff])
    | .notFound =>
      if cfg.dryRun then (.createdOne, [searchEff, .sleep 120])
      else
        let createEff := Effect.createItem cfg.boardId cfg.groupId (itemNameOf c)
          (columnValuesOf cfg c)
        match o.writer with
        | .ok => (.createdOne, [searchEff, createEff, .sleep 120])
        | .fail msg auth =>
          if auth then (.authAbort msg, [searchEff, createEff])
          else (.errored c.Email msg, [searchEff, createEff])
    | .found id _name =>
      if !cfg.updateExisting then (.skippedExistingOne, [searchEff, .sleep 120])
      else if cfg.dryRun then (.updatedOne, [searchEff, .sleep 120])
      else
        let updEff := Effect.updateItem cfg.boardId id (columnValuesOf cfg c)
        match o.writer with
        | .ok => (.updatedOne, [searchEff, updEff, .sleep 120])
        | .fail msg auth =>
          if auth then (.authAbort msg, [searchEff, updEff])
          else (.errored c.Email msg, [searchEff, updEff])

/-- The loop's counters and error list (`errors` in encounter order). -/
structure Counters where
  created : Nat := 0
  updated : Nat := 0
  skippedExisting : Nat := 0
  skippedNoEmail : Nat := 0
  errors : List (Option String × String) := []
  deriving Repr, DecidableEq

/-- Apply a non-aborting iteration outcome to the counters. -/
def applyOutcome (o : CustOutcome) (cnt : Counters) : Counters :=
  match o with
  | .createdOne => { cnt with created := cnt.created + 1 }
  | .updatedOne => { cnt with updated := cnt.updated + 1 }
  | .skippedExistingOne => { cnt with skippedExisting := cnt.skippedExisting + 1 }
  | .skippedNoEmailOne => { cnt with skippedNoEmail := cnt.skippedNoEmail + 1 }
  | .errored email msg => { cnt with errors := (email, msg) :: cnt.errors }
  | .authAbort _ => cnt

/-- How the whole `for` loop ended: normally with counters, or aborted by a
rethrown `MondayAuthError` (in which case everything after the throwing
iteration is not executed). -/
inductive LoopResult where
  | done (cnt : Counters) (effects : List Effect)
  | aborted (effects : List Effect) (msg : String)
  deriving Repr, DecidableEq

/-- The `for (const c of customers)` loop over the remaining customers, the
oracle indexed by absolute position. -/
def runLoop (cfg : Config) (oracle : Nat → CustomerOracle) :
    List GoCreateCustomerInfo → Nat → LoopResult
  | [], _ => .done {} []
  | c :: rest, i =>
    let step := processCustomer cfg c (oracle i)
    match step.1 with
    | .authAbort msg => .aborted step.2 msg
    | o =>
      match runLoop cfg oracle rest (i + 1) with
      | .aborted effs msg => .aborted (step.2 ++ effs) msg
      | .done cnt effs => .done (applyOutcome o cnt) (step.2 ++ effs)

/-- The JSON object `runSync` returns after a full pass. -/
structure SyncResult where
  stockholmDate : String
  forced : Bool
  windowStartISO : String
  windowEndISO : String
  fetched : Nat
  created : Nat
  updated : Nat
  skippedExisting : Nat
  skippedNoEmail : Nat
  errors : List (Option String × String)
  finishedUtc : String
  deriving Repr, DecidableEq

/-- How a `runSync` call ends. -/
inductive RunResult where
  /-- `{ skipped: true }` from the 23:59 gate -/
  | skippedTime
  /-- `{ skipped: true, alreadyRan: true, date }` from the once-per-day guard -/
  | skippedAlreadyRan (date : String)
  /-- normal completion with the result object -/
  | completed (r : SyncResult)
  /-- a thrown error escapes `runSync` (`auth` marks a `MondayAuthError`) -/
  | threw (auth : Bool) (msg : String)
  deriving Repr, DecidableEq

/-- The two persisted guard keys. -/
def lastRunKey : String := "sync:lastRunISO"
def ranKey : String := "sync:lastRunDateStockholm"

/-- The persisted key-value storage visible to this app. -/
structure StorageState where
  lastRunISO : Option String := none
  lastRunDateStockholm : Option String := none
  deriving Repr, DecidableEq

/-- Everything outside the program that a single `runSync` call observes:
the clock readings at its four `new Date()` sites, the GoCreate response
(either a thrown error or the customer list), and the monday API behaviour
per loop iteration. -/
structure SyncWorld where
  /-- the `new Date()` at the top of `runSync` (feeds `stockholmParts`) -/
  nowMs : Nat
  /-- the `Date.now()` inside `isoDaysAgoUtc` -/
  startNowMs : Nat
  /-- the `new Date()` inside the `isoNowUtc` that makes `endISO` -/
  endNowMs : Nat
  /-- the `new Date()` inside the `isoNowUtc` after the loop -/
  finishMs : Nat
  /-- a GoCreate fetch failure (non-OK HTTP or invalid result), if any -/
  fetchError : Option String
  /-- the customers the fetch returns (when it does not fail) -/
  customers : List GoCreateCustomerInfo
  /-- the monday API behaviour for the i-th loop iteration -/
  oracle : Nat → CustomerOracle

/-- The fetch window start: the stored last-run ISO when present, truthy and
valid, else `isoDaysAgoUtc(lookbackDays)`. -/
def windowStart (cfg : Config) (w : SyncWorld) (st : StorageState) : String :=
  match st.lastRunISO with
  | some s =>
    if s != "" && isValidIsoDate s then s else isoDaysAgoUtc cfg.lookbackDays w.startNowMs
  | none => isoDaysAgoUtc cfg.lookbackDays w.startNowMs

/-- `runSync(opts)`: returns the result, the effect trace, and the storage
state afterwards. -/
def runSync (cfg : Config) (force : Bool) (w : SyncWorld) (st : StorageState) :
    RunResult × List Effect × StorageState :=
  let parts := stockholmParts w.nowMs
  -- DST-safe gating: only run at 23:59 Stockholm time (unless forced)
  if !force && !(parts.hour == 23 && parts.minute == 59) then (.skippedTime, [], st)
  else
    -- run-once-per-day guard (Stockholm calendar date), scheduled runs only
    let guardEffs := if force then [] else [Effect.storageGet ranKey]
    if !force && st.lastRunDateStockholm == some parts.yyyyMMdd then
      (.skippedAlreadyRan parts.yyyyMMdd, guardEffs, st)
    else
      let startISO := windowStart cfg w st
      let endISO := toISOStringUtc w.endNowMs
      let preEffs := guardEffs ++ [Effect.storageGet lastRunKey,
        Effect.fetchCustomers startISO endISO]
      match w.fetchError with
      | some msg => (.threw false msg, preEffs, st)
      | none =>
        match runLoop cfg w.oracle w.customers 0 with
        | .aborted effs msg => (.threw true msg, preEffs ++ effs, st)
        | .done cnt effs =>
          let nowISO := toISOStringUtc w.finishMs
          let result : SyncResult :=
            { stockholmDate := parts.yyyyMMdd
              forced := force
              windowStartISO := startISO
              windowEndISO := endISO
              fetched := w.customers.length
              created := cnt.created
              updated := cnt.updated
              skippedExisting := cnt.skippedExisting
              skippedNoEmail := cnt.skippedNoEmail
              errors := cnt.errors
              finishedUtc := nowISO }
          -- advance state only on full success, not dry-run, not forced
          if !force && !cfg.dryRun && cnt.errors.isEmpty then
            (.completed result,
             preEffs ++ effs ++ [Effect.storageSet lastRunKey nowISO,
               Effect.storageSet ranKey parts.yyyyMMdd],
             { lastRunISO := some nowISO, lastRunDateStockholm := some parts.yyyyMMdd })
          else (.completed result, preEffs ++ effs, st)

/-- A sequence of `runSync` invocations threading the persisted storage. -/
def runSeq (cfg : Config) (st : StorageState) :
    List (Bool × SyncWorld) → List RunResult × StorageState
  | [] => ([], st)
  | (force, w) :: rest =>
    let step := runSync cfg force w st
    let tail := runSeq cfg step.2.2 rest
    (step.1 :: tail.1, tail.2)

/-! ## Helper predicates on effects -/

def isSearchEffect : Effect → Bool
  | .search _ _ _ _ => true
  | _ => false

def isCreateEffect : Effect → Bool
  | .createItem _ _ _ _ => true
  | _ => false

def isUpdateEffect : Effect → Bool
  | .updateItem _ _ _ => true
  | _ => false

def isStorageSetEffect : Effect → Bool
  | .storageSet _ _ => true
  | _ => false

/-- Effects that the `for` loop body can perform (monday calls and sleeps;
never storage writes or fetches). -/
def isLoopEffect : Effect → Bool
  | .search _ _ _ _ => true
  | .createItem _ _ _ _ => true
  | .updateItem _ _ _ => true
  | .sleep _ => true
  | _ => false

def completedResult : RunResult → Option SyncResult
  | .completed r => some r
  | _ => none

/-- The sum of the four counters and the error count. -/
def countersSum (cnt : Counters) : Nat :=
  cnt.created + cnt.updated + cnt.skippedExisting + cnt.skippedNoEmail + cnt.errors.length

/-- The per-record effect blocks of the loop, in source order. -/
def perRecordTraces (cfg : Config) (oracle : Nat → CustomerOracle) :
    List GoCreateCustomerInfo → Nat → List (List Effect)
  | [], _ => []
  | c :: rest, i =>
    (processCustomer cfg c (oracle i)).2 :: perRecordTraces cfg oracle rest (i + 1)

/-! ## Concrete fixtures (used by witnesses and counterexamples) -/

def cfgStd : Config :=
  { dryRun := false, updateExisting := true, lookbackDays := 1, boardId := 123,
    groupId := "grp", colEmail := "email", colTelefon := "phone", colForetag := "text" }

def cfgNoUpdate : Config := { cfgStd with updateExisting := false }

def cfgDry : Config := { cfgStd with dryRun := true }

def custAlice : GoCreateCustomerInfo :=
  { FirstName := some "Alice", LastName := some "Lund", MobileNumber := some " 0701 ",
    Email := some " Alice@Example.COM ", CompanyName := some "ACME" }

def custNoEmail : GoCreateCustomerInfo := { FirstName := some "Bo", Email := some "   " }

/-- 2026-10-12T21:59:30Z, which is 23:59:30 in Stockholm (CEST, UTC+2). -/
def msOct12at2359 : Nat := 20738 * 86400000 + 21 * 3600000 + 59 * 60000 + 30000

/-- One minute earlier: 23:58:30 in Stockholm. -/
def msOct12at2358 : Nat := msOct12at2359 - 60000

def stEmpty : StorageState := {}

def oracleNotFound : Nat → CustomerOracle := fun _ => { findr := .notFound, writer := .ok }

def oracleFound : Nat → CustomerOracle :=
  fun _ => { findr := .found "42" "Alice Lund", writer := .ok }

/-- A world at the given instant with an empty customer list. -/
def worldEmptyAt (ms : Nat) : SyncWorld :=
  { nowMs := ms, startNowMs := ms, endNowMs := ms, finishMs := ms, fetchError := none,
    customers := [], oracle := oracleNotFound }

def worldAliceFound : SyncWorld :=
  { worldEmptyAt msOct12at2359 with customers := [custAlice], oracle := oracleFound }

/-! ## C2: the 23:59 Stockholm gate -/

/-- C2: for every non-forced invocation, when the current instant's
Europe/Stockholm wall-clock reading is not exactly 23:59, `runSync` returns
the skipped result with an empty effect trace (no fetch, no monday call, no
storage access) and the storage unchanged. -/
theorem runSync_skips_outside_2359_stockholm (cfg : Config) (w : SyncWorld) (st : StorageState)
    (h : ¬((stockholmParts w.nowMs).hour = 23 ∧ (stockholmParts w.nowMs).minute = 59)) :
    runSync cfg false w st = (.skippedTime, [], st) := by
  have hb : ((stockholmParts w.nowMs).hour == 23 && (stockholmParts w.nowMs).minute == 59)
      = false := by
    rcases Bool.eq_false_or_eq_true
        ((stockholmParts w.nowMs).hour == 23 && (stockholmParts w.nowMs).minute == 59) with
      ht | hf
    · rcases Bool.and_eq_true .. |>.mp ht with ⟨h1, h2⟩
      exact absurd ⟨beq_iff_eq.mp h1, beq_iff_eq.mp h2⟩ h
    · exact hf
  simp [runSync, hb]

/-- Witness for C2 at 23:58:30 Stockholm on 2026-10-12. -/
theorem runSync_skips_outside_2359_stockholm_witness :
    runSync cfgStd false (worldEmptyAt msOct12at2358) stEmpty = (.skippedTime, [], stEmpty) :=
  runSync_skips_outside_2359_stockholm cfgStd (worldEmptyAt msOct12at2358) stEmpty (by decide)

/-! ## Structural lemmas about the loop -/

/-- The loop body only performs monday calls and sleeps. -/
theorem processCustomer_effects_all_loopOnly (cfg : Config) (c : GoCreateCustomerInfo)
    (o : CustomerOracle) : (processCustomer cfg c o).2.all isLoopEffect = true := by
  unfold processCustomer
  dsimp only
  repeat' split
  all_goals rfl

/-- The loop body only performs monday calls and sleeps (membership form). -/
theorem processCustomer_effects_loopOnly (cfg : Config) (c : GoCreateCustomerInfo)
    (o : CustomerOracle) : ∀ e ∈ (processCustomer cfg c o).2, isLoopEffect e = true :=
  List.all_eq_true.mp (processCustomer_effects_all_loopOnly cfg c o)

/-- The whole loop only performs monday calls and sleeps, whether it finishes
or aborts. -/
theorem runLoop_effects_loopOnly (cfg : Config) (oracle : Nat → CustomerOracle) :
    ∀ (cs : List GoCreateCustomerInfo) (i : Nat),
      (∀ cnt effs, runLoop cfg oracle cs i = .done cnt effs →
        ∀ e ∈ effs, isLoopEffect e = true) ∧
      (∀ effs msg, runLoop cfg oracle cs i = .aborted effs msg →
        ∀ e ∈ effs, isLoopEffect e = true) := by
  intro cs
  induction cs with
  | nil =>
    intro i
    constructor
    · intro cnt effs hd
      simp only [runLoop] at hd
      cases hd
      intro e he
      simp at he
    · intro effs msg hd
      simp only [runLoop] at hd
      cases hd
  | cons c rest ih =>
    intro i
    constructor
    · intro cnt effs hd
      simp only [runLoop] at hd
      split at hd
      · cases hd
      · split at hd
        · cases hd
        · cases hd
          intro e he
          rcases List.mem_append.mp he with h1 | h2
          · exact processCustomer_effects_loopOnly cfg c (oracle i) e h1
          · exact (ih (i + 1)).1 _ _ (by assumption) e h2
    · intro effs msg hd
      simp only [runLoop] at hd
      split at hd
      · cases hd
        exact fun e he => processCustomer_effects_loopOnly cfg c (oracle i) e he
      · split at hd
        · cases hd
          intro e he
          rcases List.mem_append.mp he with h1 | h2
          · exact processCustomer_effects_loopOnly cfg c (oracle i) e h1
          · exact (ih (i + 1)).2 _ _ (by assumption) e h2
        · cases hd

/-- A finished loop's trace is the in-order concatenation of the per-record
blocks. -/
theorem runLoop_done_effects_join (cfg : Config) (oracle : Nat → CustomerOracle) :
    ∀ (cs : List GoCreateCustomerInfo) (i : Nat) (cnt : Counters) (effs : List Effect),
      runLoop cfg oracle cs i = .done cnt effs →
      effs = (perRecordTraces cfg oracle cs i).flatten := by
  intro cs
  induction cs with
  | nil =>
    intro i cnt effs hd
    simp only [runLoop] at hd
    cases hd
    simp [perRecordTraces]
  | cons c rest ih =>
    intro i cnt effs hd
    simp only [runLoop] at hd
    split at hd
    · cases hd
    · split at hd
      · cases hd
      · cases hd
        have hrec := ih (i + 1) _ _ (by assumption)
        simp [perRecordTraces, hrec]

/-- Every non-aborting iteration bumps the counter partition by exactly one. -/
theorem countersSum_applyOutcome (o : CustOutcome) (cnt : Counters)
    (h : ∀ msg, o ≠ .authAbort msg) :
    countersSum (applyOutcome o cnt) = countersSum cnt + 1 := by
  cases o
  case authAbort msg => exact absurd rfl (h msg)
  all_goals (simp [applyOutcome, countersSum]; omega)

/-- A finished loop's counters partition the processed list. -/
theorem runLoop_done_countersSum (cfg : Config) (oracle : Nat → CustomerOracle) :
    ∀ (cs : List GoCreateCustomerInfo) (i : Nat) (cnt : Counters) (effs : List Effect),
      runLoop cfg oracle cs i = .done cnt effs →
      countersSum cnt = cs.length := by
  intro cs
  induction cs with
  | nil =>
    intro i cnt effs hd
    simp only [runLoop] at hd
    cases hd
    simp [countersSum]
  | cons c rest ih =>
    intro i cnt effs hd
    simp only [runLoop] at hd
    split at hd
    · cases hd
    · split at hd
      · cases hd
      · cases hd
        rw [countersSum_applyOutcome _ _ (by assumption), ih (i + 1) _ _ (by assumption)]
        simp

/-- A caught (non-auth) error is always recorded with the record's raw
`Email` field. -/
theorem processCustomer_errored_email (cfg : Config) (c : GoCreateCustomerInfo)
    (o : CustomerOracle) (em : Option String) (msg : String)
    (h : (processCustomer cfg c o).1 = .errored em msg) : em = c.Email := by
  unfold processCustomer at h
  dsimp only at h
  repeat' split at h
  all_goals simp_all

/-! ## C10: the counters partition the fetched records -/

/-- C10: for every run of `runSync` that completes without throwing, the
counters partition the fetched records:
created + updated + skippedExisting + skippedNoEmail + errors.length
equals fetched. -/
theorem runSync_counters_partition (cfg : Config) (force : Bool) (w : SyncWorld)
    (st : StorageState) (r : SyncResult)
    (h : (runSync cfg force w st).1 = .completed r) :
    r.created + r.updated + r.skippedExisting + r.skippedNoEmail + r.errors.length
      = r.fetched := by
  unfold runSync at h
  dsimp only at h
  split at h
  · exact absurd h (by simp)
  · split at h
    · exact absurd h (by simp)
    · split at h
      · exact absurd h (by simp)
      · split at h
        · exact absurd h (by simp)
        · rename_i cnt effs heq
          have hsum := runLoop_done_countersSum cfg w.oracle w.customers 0 cnt effs heq
          split at h
          · cases h
            simpa [countersSum] using hsum
          · cases h
            simpa [countersSum] using hsum

/-- The world of the C10 witness: one record without an email and one record
that gets created. -/
def wC10 : SyncWorld :=
  { worldEmptyAt msOct12at2359 with
      customers := [custNoEmail, custAlice], oracle := oracleNotFound }

/-- The result the C10 witness run produces. -/
def resC10 : SyncResult :=
  { stockholmDate := "2026-10-12", forced := false,
    windowStartISO := "2026-10-11T21:59:30.000Z", windowEndISO := "2026-10-12T21:59:30.000Z",
    fetched := 2, created := 1, updated := 0, skippedExisting := 0, skippedNoEmail := 1,
    errors := [], finishedUtc := "2026-10-12T21:59:30.000Z" }

/-- Witness for C10: the concrete mixed run (one record without email, one
created) has 1 + 0 + 0 + 1 + 0 = 2 = fetched. -/
theorem runSync_counters_partition_witness :
    (runSync cfgStd false wC10 stEmpty).1 = .completed resC10 ∧
      resC10.created + resC10.updated + resC10.skippedExisting + resC10.skippedNoEmail
        + resC10.errors.length = resC10.fetched :=
  ⟨by decide, runSync_counters_partition cfgStd false wC10 stEmpty resC10 (by decide)⟩

/-! ## C4: when the guard keys are written -/

theorem isLoopEffect_not_storageSet (e : Effect) (h : isLoopEffect e = true) :
    isStorageSetEffect e = false := by
  cases e <;> simp_all [isLoopEffect, isStorageSetEffect]

/-- C4: the two guard keys (`sync:lastRunISO`, `sync:lastRunDateStockholm`)
are written if and only if the run was not forced, not a dry run, and
completed with an empty per-record error list; in every other outcome
(forced, dry, thrown, skipped, or with a recorded error) no storage write
appears in the trace and the stored values are unchanged.  When they are
written, they receive the finish timestamp and the Stockholm date. -/
theorem runSync_guard_keys_persist_iff (cfg : Config) (force : Bool) (w : SyncWorld)
    (st : StorageState) :
    (((runSync cfg force w st).2.1.any isStorageSetEffect = true) ∨
        (runSync cfg force w st).2.2 ≠ st
      ↔ force = false ∧ cfg.dryRun = false ∧
        ∃ r, (runSync cfg force w st).1 = .completed r ∧ r.errors = []) ∧
    (∀ r, (runSync cfg force w st).1 = .completed r → force = false → cfg.dryRun = false →
      r.errors = [] →
      (runSync cfg force w st).2.2 =
        { lastRunISO := some r.finishedUtc,
          lastRunDateStockholm := some r.stockholmDate }) := by
  unfold runSync
  dsimp only
  repeat' split
  all_goals simp [isStorageSetEffect]
  all_goals
    first
      | (rename_i hA hB
         intro e he
         exact isLoopEffect_not_storageSet e
           ((runLoop_effects_loopOnly cfg w.oracle w.customers 0).2 _ _ hA e he))
      | (rename_i hA hB
         simp only [Bool.and_eq_true, Bool.not_eq_true'] at hA
         exact ⟨hA.1.1, hA.1.2, List.isEmpty_iff.mp hA.2⟩)
      | (rename_i heq hA hB
         constructor
         · constructor
           · rintro ⟨e, he, hset⟩
             have hl := (runLoop_effects_loopOnly cfg w.oracle w.customers 0).1 _ _ heq e he
             have hfalse := isLoopEffect_not_storageSet e hl
             have hset' : isStorageSetEffect e = true := hset
             rw [hfalse] at hset'
             cases hset'
           · rintro ⟨hf, hd, he2⟩
             exact absurd (by simp [hf, hd, he2]) hA
         · intro hf hd he2
           exact absurd (by simp [hf, hd, he2]) hA)

/-- Witness for C4: the concrete successful run writes the finish timestamp
and the Stockholm date. -/
theorem runSync_guard_keys_persist_iff_witness :
    (runSync cfgStd false wC10 stEmpty).2.2 =
      { lastRunISO := some resC10.finishedUtc,
        lastRunDateStockholm := some resC10.stockholmDate } :=
  (runSync_guard_keys_persist_iff cfgStd false wC10 stEmpty).2 resC10 (by decide) rfl rfl
    (by decide)

/-! ## C5: the fetch window -/

/-- The date windows of the fetch calls in a trace, in order. -/
def fetchesOf (tr : List Effect) : List (String × String) :=
  tr.filterMap (fun x => match x with
    | .fetchCustomers s e => some (s, e)
    | _ => none)

theorem fetchesOf_loopOnly (effs : List Effect)
    (h : ∀ x ∈ effs, isLoopEffect x = true) : fetchesOf effs = [] := by
  rw [fetchesOf, List.filterMap_eq_nil_iff]
  intro a ha
  have := h a ha
  cases a <;> simp_all [isLoopEffect]

/-- C5: every run that gets past the two skip guards issues exactly one fetch,
whose window starts at the stored last-run ISO timestamp when one is stored,
non-empty and a valid ISO date, and otherwise at the current time minus
`LOOKBACK_DAYS` days (default 1); the window always ends at the current UTC
time. -/
theorem runSync_fetch_window (cfg : Config) (force : Bool) (w : SyncWorld) (st : StorageState)
    (h1 : (runSync cfg force w st).1 ≠ .skippedTime)
    (h2 : ∀ d, (runSync cfg force w st).1 ≠ .skippedAlreadyRan d) :
    fetchesOf (runSync cfg force w st).2.1 =
      [(windowStart cfg w st, toISOStringUtc w.endNowMs)] ∧
    (st.lastRunISO = none →
      windowStart cfg w st = isoDaysAgoUtc cfg.lookbackDays w.startNowMs) ∧
    (∀ v, st.lastRunISO = some v → v ≠ "" → isValidIsoDate v = true →
      windowStart cfg w st = v) ∧
    (∀ v, st.lastRunISO = some v → isValidIsoDate v = false →
      windowStart cfg w st = isoDaysAgoUtc cfg.lookbackDays w.startNowMs) ∧
    getEnvInt none 1 = 1 := by
  refine ⟨?_, ?_, ?_, ?_, rfl⟩
  · rcases hval : runSync cfg force w st with ⟨res, tr, st2⟩
    rw [hval] at h1 h2
    dsimp only at h1 h2
    unfold runSync at hval
    dsimp only at hval
    repeat' split at hval
    all_goals (
      injection hval with e1 e23
      injection e23 with e2 e3
      subst e1
      subst e2
      subst e3)
    all_goals
      first
        | exact absurd rfl h1
        | exact absurd rfl (h2 _)
        | (simp [fetchesOf]
           intro a ha
           have hl := (runLoop_effects_loopOnly cfg w.oracle w.customers 0).2 _ _
             (by assumption) a ha
           cases a <;> simp_all [isLoopEffect])
        | (simp [fetchesOf]
           intro a ha
           have hl := (runLoop_effects_loopOnly cfg w.oracle w.customers 0).1 _ _
             (by assumption) a ha
           cases a <;> simp_all [isLoopEffect])
        | simp [fetchesOf]
  · intro hnone
    simp [windowStart, hnone]
  · intro v hv hne hvalid
    have hb : (v != "") = true := bne_iff_ne.mpr hne
    simp [windowStart, hv, hb, hvalid]
  · intro v hv hvalid
    simp [windowStart, hv, hvalid]

/-- Witness for C5: the concrete run issues exactly one fetch with the
computed window. -/
theorem runSync_fetch_window_witness :
    fetchesOf (runSync cfgStd false wC10 stEmpty).2.1 =
      [(windowStart cfgStd wC10 stEmpty, toISOStringUtc wC10.endNowMs)] :=
  (runSync_fetch_window cfgStd false wC10 stEmpty (by decide) (fun d hd => by
    have hc : (runSync cfgStd false wC10 stEmpty).1 = RunResult.completed resC10 := by decide
    rw [hc] at hd
    cases hd)).1

/-! ## C3: the once-per-day guard -/

/-- Whether a run executed the full sync body (it was not skipped and did not
throw). -/
def isFullPass : RunResult → Bool
  | .completed _ => true
  | _ => false

/-- C3 counterexample: with `DRY_RUN` enabled, two non-forced invocations in
the same 23:59 Stockholm minute both execute a full (non-skipped) pass on the
same Stockholm calendar date, so the claim "at most one full non-forced sync
pass executes per Stockholm calendar day" fails: the guard key is only
advanced by runs that persist (non-dry, error-free). -/
theorem runSync_once_per_day_counterexample :
    ((runSeq cfgDry stEmpty
        [(false, worldEmptyAt msOct12at2359),
         (false, worldEmptyAt (msOct12at2359 + 10000))]).1.map isFullPass) = [true, true] ∧
    (stockholmParts msOct12at2359).yyyyMMdd
      = (stockholmParts (msOct12at2359 + 10000)).yyyyMMdd := by
  decide

/-- C3 (amended): for every non-forced run, if the stored last-run Stockholm
calendar date equals today's Stockholm date, the run returns skipped with no
side effects (at most a guard-key read); and after a non-forced pass that
persisted (no dry run, empty error list), any further non-forced run on the
same Stockholm date is skipped — so at most one persisting non-forced pass
executes per Stockholm calendar day (dry or erroring passes do not advance
the guard and may run again). -/
theorem runSync_day_guard_and_once_per_day :
    (∀ cfg (w : SyncWorld) (st : StorageState),
      st.lastRunDateStockholm = some (stockholmParts w.nowMs).yyyyMMdd →
      runSync cfg false w st = (.skippedTime, [], st) ∨
      runSync cfg false w st =
        (.skippedAlreadyRan (stockholmParts w.nowMs).yyyyMMdd,
         [Effect.storageGet ranKey], st)) ∧
    (∀ cfg (w1 w2 : SyncWorld) (st : StorageState) (cnt : Counters) (effs : List Effect),
      cfg.dryRun = false →
      (stockholmParts w1.nowMs).hour = 23 →
      (stockholmParts w1.nowMs).minute = 59 →
      st.lastRunDateStockholm ≠ some (stockholmParts w1.nowMs).yyyyMMdd →
      w1.fetchError = none →
      runLoop cfg w1.oracle w1.customers 0 = .done cnt effs →
      cnt.errors = [] →
      (stockholmParts w2.nowMs).yyyyMMdd = (stockholmParts w1.nowMs).yyyyMMdd →
      (runSync cfg false w2 ((runSync cfg false w1 st).2.2)).1 = .skippedTime ∨
      (runSync cfg false w2 ((runSync cfg false w1 st).2.2)).1 =
        .skippedAlreadyRan (stockholmParts w2.nowMs).yyyyMMdd) := by
  constructor
  · intro cfg w st hst
    have hbeq : (st.lastRunDateStockholm == some (stockholmParts w.nowMs).yyyyMMdd) = true :=
      beq_iff_eq.mpr hst
    rcases Bool.eq_false_or_eq_true
        ((stockholmParts w.nowMs).hour == 23 && (stockholmParts w.nowMs).minute == 59) with
      hg | hg
    · right
      simp [runSync, hg, hbeq]
    · left
      simp [runSync, hg]
  · intro cfg w1 w2 st cnt effs hdry hh hm hne hfe hloop herr hsame
    have hg1 : ((stockholmParts w1.nowMs).hour == 23 &&
        (stockholmParts w1.nowMs).minute == 59) = true := by
      simp [hh, hm]
    have hguard : (st.lastRunDateStockholm == some (stockholmParts w1.nowMs).yyyyMMdd)
        = false := by
      simp [hne]
    have hst' : (runSync cfg false w1 st).2.2 =
        { lastRunISO := some (toISOStringUtc w1.finishMs),
          lastRunDateStockholm := some (stockholmParts w1.nowMs).yyyyMMdd } := by
      simp [runSync, hg1, hguard, hfe, hloop, hdry, herr]
    rcases Bool.eq_false_or_eq_true
        ((stockholmParts w2.nowMs).hour == 23 && (stockholmParts w2.nowMs).minute == 59) with
      hg2 | hg2
    · right
      rw [hst']
      simp [runSync, hg2, hsame]
    · left
      rw [hst']
      simp [runSync, hg2]

/-- Witness for the amended C3: after a persisting non-forced pass at 23:59 on
2026-10-12, a second non-forced invocation ten seconds later is skipped. -/
theorem runSync_day_guard_and_once_per_day_witness :
    (runSync cfgStd false (worldEmptyAt (msOct12at2359 + 10000))
        ((runSync cfgStd false (worldEmptyAt msOct12at2359) stEmpty).2.2)).1
      = .skippedTime ∨
    (runSync cfgStd false (worldEmptyAt (msOct12at2359 + 10000))
        ((runSync cfgStd false (worldEmptyAt msOct12at2359) stEmpty).2.2)).1
      = .skippedAlreadyRan (stockholmParts (worldEmptyAt (msOct12at2359 + 10000)).nowMs).yyyyMMdd :=
  runSync_day_guard_and_once_per_day.2 cfgStd (worldEmptyAt msOct12at2359)
    (worldEmptyAt (msOct12at2359 + 10000)) stEmpty {} [] rfl (by decide) (by decide)
    (by decide) rfl rfl rfl (by decide)

/-! ## C1: create-versus-update decision -/

/-- The search effect a customer's iteration issues. -/
def searchEffOf (cfg : Config) (c : GoCreateCustomerInfo) : Effect :=
  .search cfg.boardId cfg.colEmail (emailOf c) 1

/-- C1 counterexample: with `UPDATE_EXISTING=false` the search finds an
existing item for the customer's email, yet no update call is issued — the
record is counted `skippedExisting` instead of being updated, so "if an item
is found, that item's columns are updated" does not hold for every
configuration. -/
theorem runSync_upsert_counterexample :
    (completedResult (runSync cfgNoUpdate false worldAliceFound stEmpty).1).map
        (fun r => (r.created, r.updated, r.skippedExisting)) = some (0, 0, 1) ∧
    (runSync cfgNoUpdate false worldAliceFound stEmpty).2.1.countP isSearchEffect = 1 ∧
    (runSync cfgNoUpdate false worldAliceFound stEmpty).2.1.countP isUpdateEffect = 0 := by
  decide

/-- C1 (amended): for every fetched customer with a non-empty email the sync
decides between creation and update by the email search: when nothing is
found, a create call is issued (suppressed in dry runs) and counted; when an
item is found, an update call on that item is issued and counted provided
`UPDATE_EXISTING` is enabled (its default) and the run is not a dry run;
with `UPDATE_EXISTING` disabled the found record is counted `skippedExisting`
and no write is issued.  No other conflict resolution occurs. -/
theorem processCustomer_upsert_decision (cfg : Config) (c : GoCreateCustomerInfo)
    (o : CustomerOracle) (he : emailRawOf c ≠ "") (hw : o.writer = .ok) :
    (o.findr = .notFound →
      processCustomer cfg c o =
        (.createdOne,
         if cfg.dryRun then [searchEffOf cfg c, .sleep 120]
         else [searchEffOf cfg c,
           .createItem cfg.boardId cfg.groupId (itemNameOf c) (columnValuesOf cfg c),
           .sleep 120])) ∧
    (∀ id name, o.findr = .found id name →
      processCustomer cfg c o =
        if cfg.updateExisting = false then
          (.skippedExistingOne, [searchEffOf cfg c, .sleep 120])
        else if cfg.dryRun then (.updatedOne, [searchEffOf cfg c, .sleep 120])
        else (.updatedOne,
          [searchEffOf cfg c, .updateItem cfg.boardId id (columnValuesOf cfg c),
           .sleep 120])) := by
  have heb : (emailRawOf c == "") = false := by simp [he]
  constructor
  · intro hf
    by_cases hd : cfg.dryRun = true
    · simp [processCustomer, heb, hf, hd, searchEffOf]
    · simp [processCustomer, heb, hf, hd, hw, searchEffOf]
  · intro id name hf
    by_cases hu : cfg.updateExisting = true
    · by_cases hd : cfg.dryRun = true
      · simp [processCustomer, heb, hf, hu, hd, searchEffOf]
      · simp [processCustomer, heb, hf, hu, hd, hw, searchEffOf]
    · simp [processCustomer, heb, hf, Bool.eq_false_iff.mpr hu, searchEffOf]

/-- Witness for the amended C1: a found item is updated under the default
configuration. -/
theorem processCustomer_upsert_decision_witness :
    processCustomer cfgStd custAlice { findr := .found "42" "Alice Lund", writer := .ok } =
      (.updatedOne,
       [searchEffOf cfgStd custAlice,
        .updateItem cfgStd.boardId "42" (columnValuesOf cfgStd custAlice),
        .sleep 120]) := by
  have h := (processCustomer_upsert_decision cfgStd custAlice
    { findr := .found "42" "Alice Lund", writer := .ok } (by decide) rfl).2 "42" "Alice Lund" rfl
  simpa [cfgStd] using h

/-! ## C6: one equality search per processed customer -/

/-- C6: for every customer processed with a non-empty email, the trace of its
iteration contains exactly one monday search; it is the first call, targets
the configured board and email column with the normalized email and limit 1;
and the find result alone decides the branch: nothing found → no update call,
item found → no create call. -/
theorem processCustomer_single_search (cfg : Config) (c : GoCreateCustomerInfo)
    (o : CustomerOracle) (he : emailRawOf c ≠ "") :
    (processCustomer cfg c o).2.countP isSearchEffect = 1 ∧
    (processCustomer cfg c o).2.head? =
      some (.search cfg.boardId cfg.colEmail (emailOf c) 1) ∧
    (o.findr = .notFound → (processCustomer cfg c o).2.countP isUpdateEffect = 0) ∧
    (∀ id name, o.findr = .found id name →
      (processCustomer cfg c o).2.countP isCreateEffect = 0) := by
  have heb : (emailRawOf c == "") = false := by simp [he]
  unfold processCustomer
  dsimp only
  rw [heb]
  repeat' split
  all_goals
    simp_all [isSearchEffect, isUpdateEffect, isCreateEffect, List.countP_cons]

/-- Witness for C6 on a concrete customer and a found item. -/
theorem processCustomer_single_search_witness :
    (processCustomer cfgStd custAlice (oracleFound 0)).2.countP isSearchEffect = 1 ∧
    (processCustomer cfgStd custAlice (oracleFound 0)).2.head? =
      some (.search cfgStd.boardId cfgStd.colEmail (emailOf custAlice) 1) :=
  ⟨(processCustomer_single_search cfgStd custAlice (oracleFound 0) (by decide)).1,
   (processCustomer_single_search cfgStd custAlice (oracleFound 0) (by decide)).2.1⟩

/-! ## C7: sequential processing and the 120 ms delay -/

/-- C7 counterexample: in a run over `[custNoEmail, custAlice]` the first
record is processed and contributes no effects at all — in particular no
120 ms delay — so no delay separates record 1 from record 2: the whole trace
starts directly with record 2's search, and its only sleep comes after
record 2.  The fixed delay is per successfully-handled record, not between
every pair of records. -/
theorem runLoop_delay_counterexample :
    (processCustomer cfgStd custNoEmail (oracleNotFound 0)).2 = [] ∧
    runLoop cfgStd oracleNotFound [custNoEmail, custAlice] 0 =
      .done { created := 1, skippedNoEmail := 1 }
        [.search 123 "email" "alice@example.com" 1,
         .createItem 123 "grp" "Alice Lund"
           [("phone", "0701"), ("email", "alice@example.com"), ("text", "ACME")],
         .sleep 120] := by
  decide

/-- C7 (amended): customers are processed strictly sequentially in source
order — the loop's trace is the in-order concatenation of the per-record
blocks, so no two records' calls interleave — and a fixed 120 ms sleep ends
the block of every record that completed its create/update/skip-existing
handling; records skipped for a missing email or ending in an error proceed
to the next record without a delay. -/
theorem runLoop_sequential_and_delay :
    (∀ cfg oracle (cs : List GoCreateCustomerInfo) (i : Nat) cnt effs,
      runLoop cfg oracle cs i = .done cnt effs →
      effs = (perRecordTraces cfg oracle cs i).flatten) ∧
    (∀ cfg (c : GoCreateCustomerInfo) (o : CustomerOracle),
      Effect.sleep 120 ∈ (processCustomer cfg c o).2 ↔
        (processCustomer cfg c o).1 = .createdOne ∨
        (processCustomer cfg c o).1 = .updatedOne ∨
        (processCustomer cfg c o).1 = .skippedExistingOne) ∧
    (∀ cfg (c : GoCreateCustomerInfo) (o : CustomerOracle),
      ((processCustomer cfg c o).1 = .createdOne ∨
        (processCustomer cfg c o).1 = .updatedOne ∨
        (processCustomer cfg c o).1 = .skippedExistingOne) →
      (processCustomer cfg c o).2.getLast? = some (.sleep 120)) := by
  refine ⟨runLoop_done_effects_join, ?_, ?_⟩
  · intro cfg c o
    unfold processCustomer
    dsimp only
    repeat' split
    all_goals simp
  · intro cfg c o
    unfold processCustomer
    dsimp only
    repeat' split
    all_goals simp

/-- Witness for the amended C7: the delay ends the block of an updated
record. -/
theorem runLoop_sequential_and_delay_witness :
    (processCustomer cfgStd custAlice (oracleFound 0)).2.getLast? =
      some (.sleep 120) :=
  runLoop_sequential_and_delay.2.2 cfgStd custAlice (oracleFound 0)
    (Or.inr (Or.inl (by decide)))

/-! ## C8: blank emails skipped, others normalized -/

/-- C8: a record whose `Email` is missing, empty or whitespace-only is
skipped entirely — `skippedNoEmail` outcome, no search, create or update
issued; every other record is searched with the trimmed lowercased email as
the equality value, and every create or update issued for it writes that
normalized email into the email column. -/
theorem processCustomer_email_handling :
    (∀ cfg (c : GoCreateCustomerInfo) (o : CustomerOracle),
      jsTrim (c.Email.getD "") = "" →
      processCustomer cfg c o = (.skippedNoEmailOne, [])) ∧
    (∀ cfg (c : GoCreateCustomerInfo) (o : CustomerOracle),
      jsTrim (c.Email.getD "") ≠ "" →
      (processCustomer cfg c o).2.head? =
        some (.search cfg.boardId cfg.colEmail (jsToLower (jsTrim (c.Email.getD ""))) 1) ∧
      (∀ bid gid nm cvs, Effect.createItem bid gid nm cvs ∈ (processCustomer cfg c o).2 →
        (cfg.colEmail, jsToLower (jsTrim (c.Email.getD ""))) ∈ cvs) ∧
      (∀ bid iid cvs, Effect.updateItem bid iid cvs ∈ (processCustomer cfg c o).2 →
        (cfg.colEmail, jsToLower (jsTrim (c.Email.getD ""))) ∈ cvs)) := by
  constructor
  · intro cfg c o he
    have heb : (emailRawOf c == "") = true := beq_iff_eq.mpr he
    simp [processCustomer, heb]
  · intro cfg c o he
    have heb : (emailRawOf c == "") = false := by
      simp [emailRawOf, he]
    refine ⟨?_, ?_, ?_⟩
    · unfold processCustomer
      dsimp only
      rw [heb]
      repeat' split
      all_goals simp_all [emailOf, emailRawOf]
    · intro bid gid nm cvs hmem
      unfold processCustomer at hmem
      dsimp only at hmem
      rw [heb] at hmem
      repeat' split at hmem
      all_goals simp_all [columnValuesOf, emailOf, emailRawOf]
    · intro bid iid cvs hmem
      unfold processCustomer at hmem
      dsimp only at hmem
      rw [heb] at hmem
      repeat' split at hmem
      all_goals simp_all [columnValuesOf, emailOf, emailRawOf]

/-- Witness for C8: the whitespace-only record is skipped with no effects,
and the concrete record's search uses the trimmed lowercased email. -/
theorem processCustomer_email_handling_witness :
    processCustomer cfgStd custNoEmail (oracleNotFound 0) = (.skippedNoEmailOne, []) ∧
    (processCustomer cfgStd custAlice (oracleNotFound 0)).2.head? =
      some (.search cfgStd.boardId cfgStd.colEmail
        (jsToLower (jsTrim (custAlice.Email.getD ""))) 1) :=
  ⟨processCustomer_email_handling.1 cfgStd custNoEmail (oracleNotFound 0) (by decide),
   (processCustomer_email_handling.2 cfgStd custAlice (oracleNotFound 0) (by decide)).1⟩

/-! ## C9: auth errors abort, other errors are recorded -/

def oracleAuthFail : Nat → CustomerOracle :=
  fun _ => { findr := .fail "auth dead" true, writer := .ok }

/-- C9: during the loop, a thrown `MondayAuthError` aborts the whole run
immediately — the trace ends with the throwing iteration's effects, no later
customer is processed, and `runSync` rethrows it — while any other per-record
error is recorded in the error list with the record's raw `Email` and the
loop continues with the remaining customers. -/
theorem runLoop_auth_abort_error_continue :
    (∀ cfg oracle (c : GoCreateCustomerInfo) rest (i : Nat) msg effs,
      processCustomer cfg c (oracle i) = (.authAbort msg, effs) →
      runLoop cfg oracle (c :: rest) i = .aborted effs msg) ∧
    (∀ cfg (c : GoCreateCustomerInfo) (o : CustomerOracle) em msg,
      (processCustomer cfg c o).1 = .errored em msg → em = c.Email) ∧
    (∀ cfg oracle (c : GoCreateCustomerInfo) rest (i : Nat) em msg effs,
      processCustomer cfg c (oracle i) = (.errored em msg, effs) →
      runLoop cfg oracle (c :: rest) i =
        (match runLoop cfg oracle rest (i + 1) with
         | .aborted effs2 m => .aborted (effs ++ effs2) m
         | .done cnt effs2 =>
           .done { cnt with errors := (em, msg) :: cnt.errors } (effs ++ effs2))) ∧
    (∀ cfg (w : SyncWorld) (st : StorageState) effs msg,
      runLoop cfg w.oracle w.customers 0 = .aborted effs msg →
      w.fetchError = none →
      (stockholmParts w.nowMs).hour = 23 →
      (stockholmParts w.nowMs).minute = 59 →
      st.lastRunDateStockholm ≠ some (stockholmParts w.nowMs).yyyyMMdd →
      (runSync cfg false w st).1 = .threw true msg) := by
  refine ⟨?_, ?_, ?_, ?_⟩
  · intro cfg oracle c rest i msg effs h
    simp [runLoop, h]
  · exact fun cfg c o em msg h => processCustomer_errored_email cfg c o em msg h
  · intro cfg oracle c rest i em msg effs h
    rcases hrec : runLoop cfg oracle rest (i + 1) with ⟨cnt2, effs2⟩ | ⟨effs2, m2⟩
    · simp [runLoop, h, hrec, applyOutcome]
    · simp [runLoop, h, hrec]
  · intro cfg w st effs msg hloop hfe hh hm hne
    have hg : ((stockholmParts w.nowMs).hour == 23 &&
        (stockholmParts w.nowMs).minute == 59) = true := by
      simp [hh, hm]
    have hguard : (st.lastRunDateStockholm == some (stockholmParts w.nowMs).yyyyMMdd)
        = false := by
      simp [hne]
    simp [runSync, hg, hguard, hfe, hloop]

/-- Witness for C9: an auth failure on the first record aborts with only that
record's search in the trace; the second record is never processed. -/
theorem runLoop_auth_abort_error_continue_witness :
    runLoop cfgStd oracleAuthFail [custAlice, custNoEmail] 0 =
      .aborted [.search 123 "email" "alice@example.com" 1] "auth dead" :=
  runLoop_auth_abort_error_continue.1 cfgStd oracleAuthFail custAlice [custNoEmail] 0
    "auth dead" [.search 123 "email" "alice@example.com" 1] (by decide)

end GocreateMondaySync
